import Mathlib

/-!
Verification development for the HIGGS training notebook
(`keras/HIGGS_train.ipynb`): a linear script that downloads the HIGGS
dataset, loads features and targets, builds a shallow and a deep dense
network, compiles them, splits the data, fits a `StandardScaler` on the
training subset, and trains and saves both models.

Numeric data is embedded over `ℚ`; a matrix is a list of rows.
-/

namespace HIGGSTrain

/-- Arithmetic mean of a list of rationals (`numpy`/`sklearn` column mean). -/
def mean (l : List ℚ) : ℚ := l.sum / l.length

/-- Population variance (ddof = 0), as computed by `sklearn.StandardScaler.fit`. -/
def popVar (l : List ℚ) : ℚ := (l.map (fun x => (x - mean l) ^ 2)).sum / l.length

/-- Column `j` of a row-major matrix (entries past a row's end default to 0). -/
def column (X : List (List ℚ)) (j : ℕ) : List ℚ := X.map (fun r => r.getD j 0)

/-- Number of feature columns, `inputs.shape[1]` for the rectangular array. -/
def nColumns (X : List (List ℚ)) : ℕ := (X.headD []).length

/-- The fitted state of `sklearn.preprocessing.StandardScaler`: per-column
mean (`mean_`) and per-column population variance (`var_`). -/
structure StandardScaler where
  mean_ : List ℚ
  var_ : List ℚ
deriving DecidableEq

/-- `StandardScaler.fit`: store each column's mean and population variance. -/
def StandardScaler.fit (X : List (List ℚ)) : StandardScaler where
  mean_ := (List.range (nColumns X)).map (fun j => mean (column X j))
  var_ := (List.range (nColumns X)).map (fun j => popVar (column X j))

/-- Characterises the `scale_` vector that `StandardScaler.fit` derives from
`var_`: `scale_ = sqrt(var_)`, with zeros replaced by 1
(`_handle_zeros_in_scale`). Square roots are irrational in general, so the
scale vector is characterised algebraically rather than computed. -/
def isSklearnScale (var scale : List ℚ) : Prop :=
  scale.length = var.length ∧
  ∀ j, j < var.length →
    (var.getD j 0 = 0 → scale.getD j 0 = 1) ∧
    (var.getD j 0 ≠ 0 → 0 < scale.getD j 0 ∧ scale.getD j 0 ^ 2 = var.getD j 0)

instance (var scale : List ℚ) : Decidable (isSklearnScale var scale) := by
  unfold isSklearnScale
  infer_instance

/-- `StandardScaler.transform`: entrywise `(x - mean_[j]) / scale_[j]`. -/
def StandardScaler.transform (s : StandardScaler) (scale : List ℚ)
    (X : List (List ℚ)) : List (List ℚ) :=
  X.map (fun r =>
    (List.range s.mean_.length).map
      (fun j => (r.getD j 0 - s.mean_.getD j 0) / scale.getD j 0))

/-- Result of `train_test_split(inputs, targets, ...)`. -/
structure SplitData where
  inputs_train : List (List ℚ)
  inputs_test : List (List ℚ)
  targets_train : List ℚ
  targets_test : List ℚ
deriving DecidableEq

/-- Number of test samples for `test_size=0.90` on `n` samples:
`ceil(0.9 * n)`, as computed by sklearn's `_validate_shuffle_split`. -/
def nTest (n : ℕ) : ℕ := (9 * n + 9) / 10

/-- `sklearn.model_selection.train_test_split(inputs, targets,
test_size=0.90, random_state=1234, shuffle=True)`.  `perm` abstracts the
seeded RNG's permutation of the row indices; sklearn takes the first
`nTest` shuffled indices as the test set and the remaining
`n - nTest` as the training set, indexing `inputs` and `targets`
with the same index arrays. -/
def train_test_split (perm : List ℕ) (inputs : List (List ℚ))
    (targets : List ℚ) : SplitData where
  inputs_train := (perm.drop (nTest inputs.length)).map (fun i => inputs.getD i [])
  inputs_test := (perm.take (nTest inputs.length)).map (fun i => inputs.getD i [])
  targets_train := (perm.drop (nTest inputs.length)).map (fun i => targets.getD i 0)
  targets_test := (perm.take (nTest inputs.length)).map (fun i => targets.getD i 0)

/-- Keras activation functions used by the notebook. -/
inductive Activation
  | tanh
  | relu
  | sigmoid
deriving DecidableEq

/-- A `keras.layers.core.Dense` layer as configured in the notebook. -/
structure DenseLayer where
  units : ℕ
  activation : Activation
  kernelInit : String
deriving DecidableEq

/-- A `keras.models.Sequential` model: the `input_dim` of its first layer
and its stack of dense layers. -/
structure SequentialModel where
  inputDim : ℕ
  layers : List DenseLayer
deriving DecidableEq

/-- `model_shallow`: Dense(1000, tanh, glorot_normal, input_dim=d) then
Dense(1, sigmoid, glorot_uniform). -/
def model_shallow (d : ℕ) : SequentialModel where
  inputDim := d
  layers := [⟨1000, .tanh, "glorot_normal"⟩, ⟨1, .sigmoid, "glorot_uniform"⟩]

/-- `model_deep`: five Dense(300, relu, glorot_normal) layers then
Dense(1, sigmoid, glorot_uniform). -/
def model_deep (d : ℕ) : SequentialModel where
  inputDim := d
  layers := [⟨300, .relu, "glorot_normal"⟩, ⟨300, .relu, "glorot_normal"⟩,
    ⟨300, .relu, "glorot_normal"⟩, ⟨300, .relu, "glorot_normal"⟩,
    ⟨300, .relu, "glorot_normal"⟩, ⟨1, .sigmoid, "glorot_uniform"⟩]

/-- Arguments of `model.compile(...)` in the notebook's compile loop. -/
structure CompileConfig where
  loss : String
  optimizer : String
  metrics : List String
deriving DecidableEq

/-- Arguments of a `model.fit(...)` call in the notebook's training loop. -/
structure FitCall where
  x : List (List ℚ)
  y : List ℚ
  batch_size : ℕ
  epochs : ℕ
  validation_split : ℚ
deriving DecidableEq

/-- The values the script computes, as functions of the loaded data, the
split permutation and the scaler's scale vector. -/
structure ScriptRun where
  models : List SequentialModel
  compileConfig : CompileConfig
  split : SplitData
  scaler : StandardScaler
  savedScalerFile : String
  fitCalls : List (FitCall × String)
deriving DecidableEq

/-- The notebook's dataflow: split `inputs`/`targets`, fit the scaler on the
training inputs, and fit each of the two models on the transformed training
inputs and training targets, saving to its file. -/
def runScript (inputs : List (List ℚ)) (targets : List ℚ) (perm : List ℕ)
    (scale : List ℚ) : ScriptRun :=
  let sd := train_test_split perm inputs targets
  let s := StandardScaler.fit sd.inputs_train
  { models := [model_shallow (nColumns inputs), model_deep (nColumns inputs)]
    compileConfig :=
      { loss := "binary_crossentropy", optimizer := "nadam", metrics := ["accuracy"] }
    split := sd
    scaler := s
    savedScalerFile := "HIGGS_preprocessing.pickle"
    fitCalls :=
      [(⟨s.transform scale sd.inputs_train, sd.targets_train, 100, 10, 1 / 4⟩,
          "HIGGS_shallow.h5"),
        (⟨s.transform scale sd.inputs_train, sd.targets_train, 100, 10, 1 / 4⟩,
          "HIGGS_deep.h5")] }

/-- The notebook's cells as an ordered list of steps. -/
inductive Step
  | download
  | load
  | buildShallow
  | buildDeep
  | compileModels
  | splitData
  | fitScaler
  | saveScaler (file : String)
  | trainModel (modelName : String)
  | saveModel (modelName : String) (file : String)
deriving DecidableEq

/-- The notebook's cells in source order: download check, load, build the
two models, compile, split, fit and pickle the scaler, then for each model
in `[model_shallow, model_deep]` train it and save it. -/
def scriptSteps : List Step :=
  [.download, .load, .buildShallow, .buildDeep, .compileModels, .splitData,
    .fitScaler, .saveScaler "HIGGS_preprocessing.pickle",
    .trainModel "shallow", .saveModel "shallow" "HIGGS_shallow.h5",
    .trainModel "deep", .saveModel "deep" "HIGGS_deep.h5"]

/-- Files written to disk by the script, in order. -/
def savedFiles : List String :=
  scriptSteps.filterMap (fun s =>
    match s with
    | .saveScaler f => some f
    | .saveModel _ f => some f
    | _ => none)

/-- Position of a step in the script. -/
def stepIdx (s : Step) : ℕ := scriptSteps.indexOf s

/-- Straight-line execution of a step list with no exception handler:
each step either succeeds (`fails s = false`) or raises; the first raise
aborts the run.  Returns the executed steps and `true` for a zero exit
status, `false` for a non-zero one. -/
def execute (fails : Step → Bool) : List Step → List Step × Bool
  | [] => ([], true)
  | s :: rest =>
    if fails s then ([s], false)
    else
      let r := execute fails rest
      (s :: r.1, r.2)

/-- Modelled from the spec: the HIGGS dataset file `HIGGS.h5` is not part
of the repository (it is downloaded at run time).  The spec describes its
content as a numeric feature matrix plus a binary label vector, so the
file's `targets` entries are modelled as bits. -/
structure HIGGSFile where
  features : List (List ℚ)
  targetBits : List Bool

/-- `inputs = np.array(file_["features"])`. -/
def loadInputs (f : HIGGSFile) : List (List ℚ) := f.features

/-- `targets = np.array(file_["targets"])`: each stored bit is read as the
number 0 or 1. -/
def loadTargets (f : HIGGSFile) : List ℚ :=
  f.targetBits.map (fun b => if b then (1 : ℚ) else 0)

/-- The download cell: `if not os.path.exists("HIGGS.h5"): wget ...`.
`file` is the current content of `HIGGS.h5` (none if absent) and
`fetched` the content wget would leave behind (none if the fetch fails).
Returns the resulting file state and whether wget was invoked. -/
def ensureDataset (file : Option String) (fetched : Option String) :
    Option String × Bool :=
  match file with
  | some c => (some c, false)
  | none => (fetched, true)

end HIGGSTrain

namespace HIGGSTrain

theorem getD_map_range {α : Type} (n j : ℕ) (f : ℕ → α) (d : α) (h : j < n) :
    ((List.range n).map f).getD j d = f j := by
  rw [List.getD_eq_getElem?_getD, List.getElem?_map, List.getElem?_range h]
  rfl

theorem sum_map_mul (a : ℚ) (f : ℚ → ℚ) (l : List ℚ) :
    (l.map (fun x => a * f x)).sum = a * (l.map f).sum := by
  induction l with
  | nil => simp
  | cons x xs ih => simp [ih]; ring

theorem sum_map_affine (a b : ℚ) (l : List ℚ) :
    (l.map (fun x => a * x + b)).sum = a * l.sum + b * l.length := by
  induction l with
  | nil => simp
  | cons x xs ih =>
    simp [ih]
    ring

theorem mean_map_affine (a b : ℚ) (l : List ℚ) (hl : l ≠ []) :
    mean (l.map (fun x => a * x + b)) = a * mean l + b := by
  have hn : (l.length : ℚ) ≠ 0 := by
    exact_mod_cast Nat.pos_iff_ne_zero.mp (List.length_pos.mpr hl)
  unfold mean
  rw [sum_map_affine, List.length_map]
  field_simp

theorem popVar_map_affine (a b : ℚ) (l : List ℚ) (hl : l ≠ []) :
    popVar (l.map (fun x => a * x + b)) = a ^ 2 * popVar l := by
  unfold popVar
  rw [mean_map_affine a b l hl, List.map_map, List.length_map]
  have hfun : ((fun x => (x - (a * mean l + b)) ^ 2) ∘ (fun x => a * x + b)) =
      fun x => a ^ 2 * ((x - mean l) ^ 2) := by
    funext x
    simp only [Function.comp]
    ring
  rw [hfun, sum_map_mul, mul_div_assoc]

theorem popVar_nil : popVar [] = 0 := by
  simp [popVar]

theorem fit_mean_length (X : List (List ℚ)) :
    (StandardScaler.fit X).mean_.length = nColumns X := by
  simp [StandardScaler.fit]

theorem fit_var_length (X : List (List ℚ)) :
    (StandardScaler.fit X).var_.length = nColumns X := by
  simp [StandardScaler.fit]

theorem fit_mean_getD (X : List (List ℚ)) (j : ℕ) (hj : j < nColumns X) :
    (StandardScaler.fit X).mean_.getD j 0 = mean (column X j) :=
  getD_map_range _ _ _ _ hj

theorem fit_var_getD (X : List (List ℚ)) (j : ℕ) (hj : j < nColumns X) :
    (StandardScaler.fit X).var_.getD j 0 = popVar (column X j) :=
  getD_map_range _ _ _ _ hj

theorem column_transform (X Y : List (List ℚ)) (scale : List ℚ) (j : ℕ)
    (hj : j < nColumns X) :
    column ((StandardScaler.fit X).transform scale Y) j =
      (column Y j).map (fun x => (x - mean (column X j)) / scale.getD j 0) := by
  unfold column StandardScaler.transform
  rw [List.map_map]
  have hj' : j < (StandardScaler.fit X).mean_.length := by
    rw [fit_mean_length]
    exact hj
  have hfun : ((fun r : List ℚ => r.getD j 0) ∘
        (fun r : List ℚ =>
          (List.range (StandardScaler.fit X).mean_.length).map
            (fun i => (r.getD i 0 - (StandardScaler.fit X).mean_.getD i 0) /
              scale.getD i 0))) =
      fun r : List ℚ => (r.getD j 0 - mean (column X j)) / scale.getD j 0 := by
    funext r
    rw [Function.comp_apply, getD_map_range _ _ _ _ hj', fit_mean_getD X j hj]
  rw [hfun, List.map_map]
  rfl

/-- C1 (amended): once fitted on the training inputs, the standardizer
transforms data by subtracting the per-column training mean and dividing by
the per-column scale (the training standard deviation, with zero standard
deviations replaced by 1); for every column whose training variance is
nonzero, the transformed training inputs have column mean 0 and
column variance 1. -/
theorem C1_standardizer_zero_mean_unit_variance (X : List (List ℚ))
    (scale : List ℚ) (j : ℕ) (hj : j < nColumns X)
    (hs : isSklearnScale (StandardScaler.fit X).var_ scale)
    (hv : popVar (column X j) ≠ 0) :
    (∀ Y, column ((StandardScaler.fit X).transform scale Y) j =
      (column Y j).map (fun x => (x - mean (column X j)) / scale.getD j 0)) ∧
    mean (column ((StandardScaler.fit X).transform scale X) j) = 0 ∧
    popVar (column ((StandardScaler.fit X).transform scale X) j) = 1 := by
  have hj2 : j < (StandardScaler.fit X).var_.length := by
    rw [fit_var_length]
    exact hj
  have hvv : (StandardScaler.fit X).var_.getD j 0 ≠ 0 := by
    rw [fit_var_getD X j hj]
    exact hv
  obtain ⟨hpos, hsq⟩ := (hs.2 j hj2).2 hvv
  rw [fit_var_getD X j hj] at hsq
  have hσne : scale.getD j 0 ≠ 0 := ne_of_gt hpos
  have hcne : column X j ≠ [] := fun hc => hv (by rw [hc, popVar_nil])
  have hmap : (fun x : ℚ => (x - mean (column X j)) / scale.getD j 0) =
      fun x => (scale.getD j 0)⁻¹ * x +
        -(mean (column X j) * (scale.getD j 0)⁻¹) := by
    funext x
    rw [div_eq_mul_inv]
    ring
  have hcol := column_transform X X scale j hj
  refine ⟨fun Y => column_transform X Y scale j hj, ?_, ?_⟩
  · rw [hcol, hmap, mean_map_affine _ _ _ hcne]
    ring
  · rw [hcol, hmap, popVar_map_affine _ _ _ hcne, ← hsq, inv_pow]
    exact inv_mul_cancel₀ (pow_ne_zero 2 hσne)

/-- C1 counterexample: on the constant training matrix `[[1], [1]]` the
fitted variance is 0, so sklearn's scale vector is `[1]`; the transformed
training inputs are `[[0], [0]]`, whose only column has variance 0, not 1.
So not every column of the transformed training inputs has variance 1. -/
theorem C1_counterexample :
    isSklearnScale (StandardScaler.fit [[1], [1]]).var_ [1] ∧
    (StandardScaler.fit [[1], [1]]).transform [1] [[1], [1]] = [[0], [0]] ∧
    popVar (column ((StandardScaler.fit [[1], [1]]).transform [1] [[1], [1]]) 0) ≠ 1 := by
  refine ⟨⟨by norm_num [StandardScaler.fit, nColumns], ?_⟩, ?_, ?_⟩
  · intro j hj
    have hj0 : j = 0 := by
      simpa [StandardScaler.fit, nColumns] using hj
    subst hj0
    norm_num [StandardScaler.fit, nColumns, column, mean, popVar]
  · norm_num [StandardScaler.fit, StandardScaler.transform, nColumns, column,
      mean, popVar, List.range_succ]
  · norm_num [StandardScaler.fit, StandardScaler.transform, nColumns, column,
      mean, popVar, List.range_succ]

/-- C1 witness: on the training matrix `[[0], [2]]` (one column, mean 1,
variance 1, scale `[1]`) the amended theorem applies and yields a
transformed column with mean 0 and variance 1. -/
theorem C1_amended_witness :
    (0 < nColumns [[(0 : ℚ)], [2]] ∧
      isSklearnScale (StandardScaler.fit [[(0 : ℚ)], [2]]).var_ [1] ∧
      popVar (column [[(0 : ℚ)], [2]] 0) ≠ 0) ∧
    (mean (column ((StandardScaler.fit [[(0 : ℚ)], [2]]).transform [1] [[(0 : ℚ)], [2]]) 0) = 0 ∧
      popVar (column ((StandardScaler.fit [[(0 : ℚ)], [2]]).transform [1] [[(0 : ℚ)], [2]]) 0) = 1) :=
  ⟨⟨by norm_num [nColumns],
    ⟨by norm_num [StandardScaler.fit, nColumns], by
      intro j hj
      have hj0 : j = 0 := by
        simpa [StandardScaler.fit, nColumns] using hj
      subst hj0
      norm_num [StandardScaler.fit, nColumns, column, mean, popVar]⟩,
    by norm_num [column, mean, popVar]⟩,
   (C1_standardizer_zero_mean_unit_variance [[(0 : ℚ)], [2]] [1] 0
      (by norm_num [nColumns])
      (⟨by norm_num [StandardScaler.fit, nColumns], by
        intro j hj
        have hj0 : j = 0 := by
          simpa [StandardScaler.fit, nColumns] using hj
        subst hj0
        norm_num [StandardScaler.fit, nColumns, column, mean, popVar]⟩)
      (by norm_num [column, mean, popVar])).2⟩

theorem map_getD_range {α : Type} (l : List α) (d : α) :
    (List.range l.length).map (fun i => l.getD i d) = l := by
  induction l with
  | nil => simp
  | cons a t ih =>
    rw [List.length_cons, List.range_succ_eq_map, List.map_cons, List.map_map]
    have hfun : ((fun i => (a :: t).getD i d) ∘ Nat.succ) =
        fun i => t.getD i d := by
      funext i
      simp [List.getD_cons_succ]
    rw [hfun, ih]
    rfl

theorem getD_zip {α β : Type} (l₁ : List α) (l₂ : List β) (d₁ : α) (d₂ : β)
    (h : l₁.length = l₂.length) (i : ℕ) :
    (l₁.zip l₂).getD i (d₁, d₂) = (l₁.getD i d₁, l₂.getD i d₂) := by
  induction l₁ generalizing l₂ i with
  | nil =>
    cases l₂ with
    | nil => simp
    | cons b t₂ => simp at h
  | cons a t ih =>
    cases l₂ with
    | nil => simp at h
    | cons b t₂ =>
      cases i with
      | zero => rfl
      | succ n =>
        simp only [List.zip_cons_cons, List.getD_cons_succ]
        exact ih t₂ (by simpa using h) n

theorem zip_map_range (inputs : List (List ℚ)) (targets : List ℚ)
    (h : targets.length = inputs.length) :
    (List.range inputs.length).map
        (fun i => (inputs.getD i [], targets.getD i 0)) = inputs.zip targets := by
  have hlen : (inputs.zip targets).length = inputs.length := by
    rw [List.length_zip, h, min_self]
  have hfun : (fun i => (inputs.getD i [], targets.getD i (0 : ℚ))) =
      fun i => (inputs.zip targets).getD i ([], 0) := by
    funext i
    rw [getD_zip inputs targets [] 0 h.symm i]
  rw [hfun, ← hlen, map_getD_range]

/-- C5: the split partitions the dataset: pairing each feature row with its
label, the training pairs and the test pairs together are a permutation of
the original paired dataset, so every row lands in exactly one subset
(counting multiplicity) and stays paired with its original label. -/
theorem C5_split_is_partition (perm : List ℕ) (inputs : List (List ℚ))
    (targets : List ℚ) (hlen : targets.length = inputs.length)
    (hperm : perm.Perm (List.range inputs.length)) :
    ((train_test_split perm inputs targets).inputs_train.zip
        (train_test_split perm inputs targets).targets_train ++
      (train_test_split perm inputs targets).inputs_test.zip
        (train_test_split perm inputs targets).targets_test).Perm
      (inputs.zip targets) := by
  simp only [train_test_split]
  rw [List.zip_map', List.zip_map', ← List.map_append]
  have happ : ((perm.drop (nTest inputs.length)) ++
      (perm.take (nTest inputs.length))).Perm (List.range inputs.length) := by
    refine List.Perm.trans ?_ hperm
    refine List.perm_append_comm.trans ?_
    rw [List.take_append_drop]
  have hmap := happ.map (fun i => (inputs.getD i [], targets.getD i (0 : ℚ)))
  rw [zip_map_range inputs targets hlen] at hmap
  exact hmap

/-- C5 witness: splitting the two-row dataset `[[1], [2]]` with labels
`[3, 4]` under the permutation `[1, 0]` is a partition. -/
theorem C5_split_witness :
    (([3, 4] : List ℚ).length = ([[1], [2]] : List (List ℚ)).length ∧
      ([1, 0] : List ℕ).Perm (List.range ([[1], [2]] : List (List ℚ)).length)) ∧
    ((train_test_split [1, 0] [[1], [2]] [3, 4]).inputs_train.zip
        (train_test_split [1, 0] [[1], [2]] [3, 4]).targets_train ++
      (train_test_split [1, 0] [[1], [2]] [3, 4]).inputs_test.zip
        (train_test_split [1, 0] [[1], [2]] [3, 4]).targets_test).Perm
      (([[1], [2]] : List (List ℚ)).zip ([3, 4] : List ℚ)) :=
  ⟨⟨rfl, by decide⟩,
    C5_split_is_partition [1, 0] [[1], [2]] [3, 4] rfl (by decide)⟩

/-- C2: fitting the standardizer reads only the training subset: any two
datasets and permutations whose splits produce the same training inputs
yield the same fitted scaler (the same `mean_` and `var_`), whatever their
held-out subsets are. -/
theorem C2_fit_depends_only_on_training_subset
    (inputs₁ : List (List ℚ)) (targets₁ : List ℚ) (perm₁ : List ℕ)
    (inputs₂ : List (List ℚ)) (targets₂ : List ℚ) (perm₂ : List ℕ)
    (scale₁ scale₂ : List ℚ)
    (h : (train_test_split perm₁ inputs₁ targets₁).inputs_train =
      (train_test_split perm₂ inputs₂ targets₂).inputs_train) :
    (runScript inputs₁ targets₁ perm₁ scale₁).scaler =
      (runScript inputs₂ targets₂ perm₂ scale₂).scaler := by
  simp only [runScript]
  rw [h]

/-- C2 witness: two ten-row datasets that differ in a held-out row but share
the single training row `[7]` get the same fitted scaler. -/
theorem C2_fit_witness :
    (train_test_split (List.range 10) (List.replicate 9 [(5 : ℚ)] ++ [[7]])
        (List.replicate 10 0)).inputs_train =
      (train_test_split (List.range 10) (List.replicate 9 [(6 : ℚ)] ++ [[7]])
        (List.replicate 10 0)).inputs_train ∧
    (runScript (List.replicate 9 [(5 : ℚ)] ++ [[7]]) (List.replicate 10 0)
        (List.range 10) []).scaler =
      (runScript (List.replicate 9 [(6 : ℚ)] ++ [[7]]) (List.replicate 10 0)
        (List.range 10) []).scaler :=
  ⟨rfl,
    C2_fit_depends_only_on_training_subset
      (List.replicate 9 [(5 : ℚ)] ++ [[7]]) (List.replicate 10 0) (List.range 10)
      (List.replicate 9 [(6 : ℚ)] ++ [[7]]) (List.replicate 10 0) (List.range 10)
      [] [] rfl⟩

/-- C3: exactly two architectures are built; the shallow one has exactly
one hidden layer (width 1000, tanh) and the deep one exactly five hidden
layers (each width 300, relu); both end in one sigmoid output unit; and
each network's input dimension is the number of feature columns of the
loaded dataset. -/
theorem C3_two_architectures (inputs : List (List ℚ)) (targets : List ℚ)
    (perm : List ℕ) (scale : List ℚ) :
    (runScript inputs targets perm scale).models.length = 2 ∧
    (runScript inputs targets perm scale).models =
      [model_shallow (nColumns inputs), model_deep (nColumns inputs)] ∧
    (model_shallow (nColumns inputs)).layers.dropLast =
      [⟨1000, .tanh, "glorot_normal"⟩] ∧
    (model_deep (nColumns inputs)).layers.dropLast =
      List.replicate 5 ⟨300, .relu, "glorot_normal"⟩ ∧
    (model_shallow (nColumns inputs)).layers.getLast? =
      some ⟨1, .sigmoid, "glorot_uniform"⟩ ∧
    (model_deep (nColumns inputs)).layers.getLast? =
      some ⟨1, .sigmoid, "glorot_uniform"⟩ ∧
    (model_shallow (nColumns inputs)).inputDim = nColumns inputs ∧
    (model_deep (nColumns inputs)).inputDim = nColumns inputs :=
  ⟨rfl, rfl, rfl, rfl, rfl, rfl, rfl, rfl⟩

/-- C4: both models are compiled with binary cross-entropy loss and the
nadam optimizer, and each fit call uses batch size 100, 10 epochs, a
validation split of 1/4 of the training subset, the standardized training
inputs and the training targets; the fit calls are a function of the
training subset alone, so the held-out test subset is never passed to
training or validation. -/
theorem C4_training_configuration (inputs : List (List ℚ)) (targets : List ℚ)
    (perm : List ℕ) (scale : List ℚ) :
    (runScript inputs targets perm scale).compileConfig.loss =
      "binary_crossentropy" ∧
    (runScript inputs targets perm scale).compileConfig.optimizer = "nadam" ∧
    (runScript inputs targets perm scale).fitCalls.length = 2 ∧
    (∀ c ∈ (runScript inputs targets perm scale).fitCalls,
      c.1.batch_size = 100 ∧ c.1.epochs = 10 ∧ c.1.validation_split = 1 / 4 ∧
      c.1.x = (runScript inputs targets perm scale).scaler.transform scale
        (train_test_split perm inputs targets).inputs_train ∧
      c.1.y = (train_test_split perm inputs targets).targets_train) ∧
    (∀ (inputs₂ : List (List ℚ)) (targets₂ : List ℚ) (perm₂ : List ℕ),
      (train_test_split perm₂ inputs₂ targets₂).inputs_train =
        (train_test_split perm inputs targets).inputs_train →
      (train_test_split perm₂ inputs₂ targets₂).targets_train =
        (train_test_split perm inputs targets).targets_train →
      (runScript inputs₂ targets₂ perm₂ scale).fitCalls.map Prod.fst =
        (runScript inputs targets perm scale).fitCalls.map Prod.fst) := by
  refine ⟨rfl, rfl, rfl, ?_, ?_⟩
  · intro c hc
    simp only [runScript, List.mem_cons, List.mem_singleton] at hc
    rcases hc with hc | hc | hc
    · subst hc
      exact ⟨rfl, rfl, rfl, rfl, rfl⟩
    · subst hc
      exact ⟨rfl, rfl, rfl, rfl, rfl⟩
    · cases hc
  · intro inputs₂ targets₂ perm₂ hx hy
    simp only [runScript, List.map_cons, List.map_nil]
    rw [hx, hy]

/-- C4 witness: on a concrete dataset the first fit call uses batch size
100, and a dataset differing only in a held-out row produces the same fit
calls. -/
theorem C4_training_witness :
    ((runScript (List.replicate 9 [(5 : ℚ)] ++ [[7]]) (List.replicate 10 0)
        (List.range 10) []).compileConfig.optimizer = "nadam") ∧
    ((runScript (List.replicate 9 [(6 : ℚ)] ++ [[7]]) (List.replicate 10 0)
        (List.range 10) []).fitCalls.map Prod.fst =
      (runScript (List.replicate 9 [(5 : ℚ)] ++ [[7]]) (List.replicate 10 0)
        (List.range 10) []).fitCalls.map Prod.fst) :=
  ⟨(C4_training_configuration (List.replicate 9 [(5 : ℚ)] ++ [[7]])
      (List.replicate 10 0) (List.range 10) []).2.1,
    (C4_training_configuration (List.replicate 9 [(5 : ℚ)] ++ [[7]])
      (List.replicate 10 0) (List.range 10) []).2.2.2.2
      (List.replicate 9 [(6 : ℚ)] ++ [[7]]) (List.replicate 10 0)
      (List.range 10) rfl rfl⟩

/-- C6: the script writes exactly three artifacts, in this order: the
pickled scaler `HIGGS_preprocessing.pickle`, then `HIGGS_shallow.h5`, then
`HIGGS_deep.h5`; and each model's save step comes after that model's
training step. -/
theorem C6_persists_three_artifacts :
    savedFiles = ["HIGGS_preprocessing.pickle", "HIGGS_shallow.h5",
      "HIGGS_deep.h5"] ∧
    stepIdx (.trainModel "shallow") <
      stepIdx (.saveModel "shallow" "HIGGS_shallow.h5") ∧
    stepIdx (.trainModel "deep") <
      stepIdx (.saveModel "deep" "HIGGS_deep.h5") := by
  refine ⟨rfl, ?_, ?_⟩ <;> decide

/-- C7 counterexample: in the notebook the two architectures are built in
cells that come before the split cell and before the scaler-fit cell, so
the construction does not happen after the split nor after the fit. -/
theorem C7_order_counterexample :
    ¬ (stepIdx .splitData < stepIdx .buildShallow) ∧
    ¬ (stepIdx .fitScaler < stepIdx .buildShallow) ∧
    stepIdx .buildShallow < stepIdx .splitData ∧
    stepIdx .buildDeep < stepIdx .fitScaler := by decide

/-- C7 (amended): the script's actual order is: download check, load,
build the shallow then the deep architecture, compile both, split the
dataset, fit and persist the standardizer, then train and save the shallow
model and then the deep model; in particular both architectures are
constructed after loading but before the split and before the
standardizer fit. -/
theorem C7_order_amended :
    stepIdx .download < stepIdx .load ∧
    stepIdx .load < stepIdx .buildShallow ∧
    stepIdx .buildShallow < stepIdx .buildDeep ∧
    stepIdx .buildDeep < stepIdx .compileModels ∧
    stepIdx .compileModels < stepIdx .splitData ∧
    stepIdx .splitData < stepIdx .fitScaler ∧
    stepIdx .fitScaler < stepIdx (.saveScaler "HIGGS_preprocessing.pickle") ∧
    stepIdx (.saveScaler "HIGGS_preprocessing.pickle") <
      stepIdx (.trainModel "shallow") ∧
    stepIdx (.trainModel "shallow") <
      stepIdx (.saveModel "shallow" "HIGGS_shallow.h5") ∧
    stepIdx (.saveModel "shallow" "HIGGS_shallow.h5") <
      stepIdx (.trainModel "deep") ∧
    stepIdx (.trainModel "deep") <
      stepIdx (.saveModel "deep" "HIGGS_deep.h5") := by decide

theorem execute_all_ok (fails : Step → Bool) (l : List Step)
    (h : ∀ s ∈ l, fails s = false) : execute fails l = (l, true) := by
  induction l with
  | nil => rfl
  | cons s rest ih =>
    have hs := h s (List.mem_cons_self s rest)
    simp only [execute, hs, Bool.false_eq_true, if_false,
      ih (fun x hx => h x (List.mem_cons_of_mem s hx))]

theorem execute_first_failure (fails : Step → Bool) (l₁ : List Step) (s : Step)
    (l₂ : List Step) (h₁ : ∀ x ∈ l₁, fails x = false) (hs : fails s = true) :
    execute fails (l₁ ++ s :: l₂) = (l₁ ++ [s], false) := by
  induction l₁ with
  | nil => simp [execute, hs]
  | cons a t ih =>
    have ha := h₁ a (List.mem_cons_self a t)
    have iht := ih (fun x hx => h₁ x (List.mem_cons_of_mem a hx))
    simp only [List.cons_append, execute, ha, Bool.false_eq_true, if_false,
      List.append_eq, iht]

/-- C8: the script has no error recovery: if every step succeeds the whole
script runs and exits zero; if some step raises, the run stops at the first
raising step (no later step of the workflow runs) and the exit status is
non-zero. -/
theorem C8_no_error_recovery (fails : Step → Bool) :
    ((∀ s ∈ scriptSteps, fails s = false) →
      execute fails scriptSteps = (scriptSteps, true)) ∧
    (∀ (l₁ : List Step) (s : Step) (l₂ : List Step),
      scriptSteps = l₁ ++ s :: l₂ → (∀ x ∈ l₁, fails x = false) →
      fails s = true → execute fails scriptSteps = (l₁ ++ [s], false)) :=
  ⟨fun h => execute_all_ok fails scriptSteps h,
    fun l₁ s l₂ heq h₁ hs => by
      rw [heq]
      exact execute_first_failure fails l₁ s l₂ h₁ hs⟩

/-- C8 witness: if the split step raises, execution stops right there with
a non-zero exit status; the scaler fit, training and saving never run. -/
theorem C8_no_error_recovery_witness :
    execute (fun s => s == Step.splitData) scriptSteps =
      ([.download, .load, .buildShallow, .buildDeep, .compileModels,
        .splitData], false) :=
  (C8_no_error_recovery (fun s => s == Step.splitData)).2
    [.download, .load, .buildShallow, .buildDeep, .compileModels] .splitData
    [.fitScaler, .saveScaler "HIGGS_preprocessing.pickle",
      .trainModel "shallow", .saveModel "shallow" "HIGGS_shallow.h5",
      .trainModel "deep", .saveModel "deep" "HIGGS_deep.h5"]
    rfl (by decide) (by decide)

/-- C9: every target entry read from the dataset file is 0 or 1. -/
theorem C9_targets_binary (f : HIGGSFile) :
    ∀ t ∈ loadTargets f, t = 0 ∨ t = 1 := by
  intro t ht
  simp only [loadTargets, List.mem_map] at ht
  obtain ⟨b, -, hb⟩ := ht
  cases b with
  | false =>
    left
    rw [← hb]
    rfl
  | true =>
    right
    rw [← hb]
    rfl

/-- C9 witness: the value read for a stored `true` bit is 1, which is 0
or 1. -/
theorem C9_targets_witness :
    (1 : ℚ) ∈ loadTargets ⟨[], [true]⟩ ∧ ((1 : ℚ) = 0 ∨ (1 : ℚ) = 1) :=
  ⟨by simp [loadTargets], C9_targets_binary ⟨[], [true]⟩ 1 (by simp [loadTargets])⟩

/-- C10: the download is attempted only when `HIGGS.h5` is absent: when the
file exists it is left unchanged and wget is not invoked; when it is absent
wget is invoked; and after any run that leaves the file present, a re-run
invokes no download and leaves the file unchanged. -/
theorem C10_download_only_if_absent (c : String)
    (fetched fetched₂ file : Option String) :
    ensureDataset (some c) fetched = (some c, false) ∧
    (ensureDataset none fetched).2 = true ∧
    ((ensureDataset file fetched).1 = some c →
      ensureDataset (ensureDataset file fetched).1 fetched₂ =
        (some c, false)) := by
  refine ⟨rfl, rfl, ?_⟩
  intro h
  rw [h]
  rfl

/-- C10 witness: a run that downloads the dataset leaves a file whose
re-run performs no download and keeps the file. -/
theorem C10_download_witness :
    ensureDataset (some "data") (some "other") = (some "data", false) ∧
    ensureDataset (ensureDataset none (some "data")).1 none =
      (some "data", false) :=
  ⟨(C10_download_only_if_absent "data" (some "other") none none).1,
    (C10_download_only_if_absent "data" (some "data") none none).2.2 rfl⟩

end HIGGSTrain
